import Mathlib

/-!
Shallow embedding of the `Muskchen/logx` rolling-file writer
(`rollingwriter/manager.go`, `rollingwriter/writer.go`, and the package's
constant/config file) together with theorems settling the spec claims.

Go values are translated as follows: byte strings become `List Nat`,
machine integers become `Int`/`Nat`, `error` results become `Option GoErr`
(`none` = nil error) or `Except GoErr α`, and file handles become `Nat`
identifiers.  Stateful code is explicit state passing; the outcome of each
operating-system call (rename, open, write, close) is an explicit input of
the function that performs it, and every externally visible action is
recorded in an event trace so that ordering claims can be stated.
Goroutines spawned by the code (the post-rotation background task) are
sequentialised: their effects are appended to the trace at spawn point.
-/

/-- Errors of the Go implementation: the three package-level errors declared
in the repository plus opaque I/O errors returned by the operating system. -/
inductive GoErr
  | errClosed
  | errInvalidArgument
  | errInternal
  | ioError (msg : String)
  deriving DecidableEq, Repr

/-- Run-time panics relevant to the embedding.  In Go, `close` of an
already-closed channel panics. -/
inductive GoPanic
  | closeOfClosedChannel
  deriving DecidableEq, Repr

/-- Observable actions of the writer, in the order they are performed. -/
inductive Ev
  | renamed (src dst : String)
  | opened (p : String) (fd : Nat)
  | fileWrite (fd : Nat) (b : List Nat)
  | fileWriteFailed (fd : Nat) (b : List Nat)
  | closedOld (fd : Nat)
  | compressedFile (name : String)
  | loggedErr (msg : String)
  | removedFile (name : String)
  | enqueuedBuf (b : List Nat)
  | bufAppend (b : List Nat)
  | fileClosed (fd : Nat)
  | ctxChanClosed
  deriving DecidableEq, Repr

/-- The `rollingwriter.Config` struct; field defaults mirror
`NewDefaultConfig`. -/
structure RConfig where
  timeTagFormat : String := "200601021504"
  logPath : String := "./log"
  fileName : String := "log"
  maxRemain : Int := -1
  rollingPolicy : Nat := 1
  rollingTimePattern : String := "0 0 * * *"
  rollingVolumeSize : String := "1G"
  writerMode : String := "lock"
  bufferWriterThreshold : Nat := 64
  compress : Bool := false
  deriving DecidableEq, Repr

/-- `NewDefaultConfig` from the constants file. -/
def NewDefaultConfig : RConfig := {}

/-- Go `strings.ToUpper` restricted to the ASCII strings this package
handles. -/
def toUpperStr (s : String) : String := ⟨s.data.map Char.toUpper⟩

/-- Decimal value of a digit string, most significant digit first. -/
def decimalValue (ds : List Char) : Int :=
  ds.foldl (fun acc c => acc * 10 + ((c.toNat - 48 : Nat) : Int)) 0

/-- Go `strconv.Atoi`: optional sign followed by at least one digit.  The
result is the pair (value, ok); on a syntax error Go returns value `0`
together with a non-nil error, which the call sites in `ParseVolume`
discard. -/
def goAtoiRes (s : String) : Int × Bool :=
  let l := s.data
  let neg : Bool := l.head? = some '-'
  let ds := if neg ∨ l.head? = some '+' then l.tail else l
  let ok : Bool := !ds.isEmpty && ds.all Char.isDigit
  (if ok then (if neg then -1 else 1) * decimalValue ds else 0, ok)

/-- The value component of `goAtoiRes` (Go call sites write `p, _ :=
strconv.Atoi(...)`). -/
def goAtoiVal (s : String) : Int := (goAtoiRes s).1

/-- The `switch` on the unit suffix in `manager.ParseVolume`
(manager.go:126-140).  Because every case falls through, `K`/`KB` yield
1024, `M`/`MB` yield 1024^2, `G`/`GB` yield 1024^3, and `T`/`TB` — and,
via the `default` branch, every unrecognised suffix — yield 1024^4. -/
def unitMultiplier (unitstr : String) : Int :=
  if unitstr = "K" ∨ unitstr = "KB" then 1024
  else if unitstr = "M" ∨ unitstr = "MB" then 1024 ^ 2
  else if unitstr = "G" ∨ unitstr = "GB" then 1024 ^ 3
  else 1024 ^ 4

/-- Body of `manager.ParseVolume` after the `strings.ToUpper` conversion,
operating on the upper-cased bytes.  The source's containment test checks
each of "K","KB","M","MB","G","GB","T","TB"; containment of the two-letter
strings implies containment of the single letters, so the test reduces to
the four single-letter checks modelled here. -/
def parseVolumeCore (l : List Char) : Int :=
  if ¬(l.contains 'K' ∨ l.contains 'M' ∨ l.contains 'G' ∨ l.contains 'T') then
    1024 * 1024 * 1024
  else if l.getLast? = some 'B' then
    -- the source first slices off one byte, then overrides both `p` and
    -- `unitstr` with the two-byte slicing when the last byte is 'B'
    goAtoiVal ⟨l.take (l.length - 2)⟩ * unitMultiplier ⟨l.drop (l.length - 2)⟩
  else
    goAtoiVal ⟨l.take (l.length - 1)⟩ * unitMultiplier ⟨l.drop (l.length - 1)⟩

/-- `manager.ParseVolume` (manager.go:104-142).  The Go method reads
`c.RollingVolumeSize` and stores the parsed threshold into
`m.thresholdSize`; it is modelled as the function from that size string to
the stored threshold. -/
def ParseVolume (sizeStr : String) : Int := parseVolumeCore (toUpperStr sizeStr).data

/-- The size-rolling trigger condition `info.Size() > m.thresholdSize`
evaluated by the volume poller (manager.go:69). -/
def volumeTrigger (size threshold : Int) : Bool := threshold < size

example : ParseVolume "1K" = 1024 := by decide
example : ParseVolume "2MB" = 2097152 := by decide
example : ParseVolume "3GB" = 3221225472 := by decide
example : ParseVolume "weird" = 1073741824 := by decide
example : ParseVolume "MB" = 0 := by decide
example : ParseVolume "KIND" = 0 := by decide

/-- State of the `manager` struct: the segment-start timestamp `startAt`
(time instants are abstract `Nat` values), whether the termination channel
`context` has been closed, and whether the cron schedule is running. -/
structure MgrState where
  startAt : Nat
  contextClosed : Bool
  cronRunning : Bool
  deriving DecidableEq, Repr

/-- `manager.Close` (manager.go:85-88): `close(m.context); m.cr.Stop()`.
In Go, `close` of an already-closed channel panics at run time, so the
second `Close` call never reaches `m.cr.Stop()`. -/
def managerClose (m : MgrState) : Except GoPanic MgrState :=
  if m.contextClosed then .error .closeOfClosedChannel
  else .ok { m with contextClosed := true, cronRunning := false }

/-- One element-processing step of Go `path.Clean` (the Plan 9 lexical
algorithm): empty and "." elements are dropped; ".." pops the most recent
real element, is dropped at the root, and is kept when a relative path has
nothing left to pop; real elements are pushed.  The stack holds the output
elements most recent first. -/
def cleanPush (rooted : Bool) (stack : List String) (elem : String) : List String :=
  if elem = "" ∨ elem = "." then stack
  else if elem = ".." then
    match stack with
    | e :: rest => if e = ".." then ".." :: stack else rest
    | [] => if rooted then [] else [".."]
  else elem :: stack

/-- Split a character list at '/' separators, accumulating the current
element in reverse; the path-element decomposition used by `path.Clean`. -/
def splitSlashAux : List Char → List Char → List String
  | acc, [] => [String.mk acc.reverse]
  | acc, c :: rest =>
    if c = '/' then String.mk acc.reverse :: splitSlashAux [] rest
    else splitSlashAux (c :: acc) rest

/-- Join path elements with '/' separators. -/
def joinSlash : List String → String
  | [] => ""
  | [e] => e
  | e :: rest => e ++ "/" ++ joinSlash rest

/-- Go `path.Clean`: lexically simplify a slash-separated path — drop empty
and "." elements, resolve ".." against preceding elements, keep a leading
slash, and return "." for an empty result. -/
def pathClean (p : String) : String :=
  if p = "" then "."
  else
    let rooted : Bool := p.data.head? == some '/'
    let stack := (splitSlashAux [] p.data).foldl (cleanPush rooted) []
    let body := joinSlash stack.reverse
    if rooted then (if body = "" then "/" else "/" ++ body)
    else (if body = "" then "." else body)

example : pathClean "./log/log.log" = "log/log.log" := by decide
example : pathClean "/a//b/./c" = "/a/b/c" := by decide
example : pathClean "a/../../b" = "../b" := by decide
example : pathClean "/.." = "/" := by decide
example : pathClean "a/.." = "." := by decide
example : pathClean "log/x.log" = "log/x.log" := by decide

/-- Go `path.Join` on two elements: if both are empty the result is "";
otherwise the non-empty elements are joined with "/" and the result is
passed through `path.Clean`. -/
def pathJoin (dir file : String) : String :=
  if dir = "" ∧ file = "" then ""
  else if dir = "" then pathClean file
  else if file = "" then pathClean dir
  else pathClean (dir ++ "/" ++ file)

example : pathJoin "./log" "log.log" = "log/log.log" := by decide
example : pathJoin "log" "x.log" = "log/x.log" := by decide

/-- `manager.GenLogFileName` (manager.go:91-101).  `format t layout`
abstracts Go's `time.Time.Format`; `now` is the current instant read by
`time.Now()`.  The internal `m.lock` serialises concurrent callers and has
no sequentially observable effect. -/
def GenLogFileName (format : Nat → String → String) (now : Nat) (c : RConfig)
    (m : MgrState) : String × MgrState :=
  let filename :=
    if c.compress then
      pathJoin c.logPath (c.fileName ++ ".log.gz." ++ format m.startAt c.timeTagFormat)
    else
      pathJoin c.logPath (c.fileName ++ ".log." ++ format m.startAt c.timeTagFormat)
  (filename, { m with startAt := now })

/-- Modelled from the spec: "`<logpath>/<filename>.log[.gz].<segment-start
formatted per TimeTagFormat>`; the `.gz` segment is present iff compression
is enabled" — the historical-file name as the spec words describe it,
against which the source's `GenLogFileName` is compared. -/
def specHistoricalName (c : RConfig) (tag : String) : String :=
  c.logPath ++ "/" ++ c.fileName ++ ".log" ++ (if c.compress then ".gz" else "") ++ "." ++ tag

/-- State of the `Writer` struct shared by all variants: the active file
handle, the canonical active path, the rotation-fire channel (at most one
pending historical filename), the configuration, and the retention channel
`rollingfilech` as a FIFO list, oldest first. -/
structure WState where
  fileId : Nat
  absPath : String
  fire : Option String
  cf : RConfig
  rollingfilech : List String
  deriving DecidableEq, Repr

/-- The `goto retry` enqueue loop used at writer.go:131-139 and
writer.go:280-288: try a non-blocking send on the capacity-`cap` retention
channel; when the channel is full, `DoRemove` pops the oldest entry and
deletes its file, then the send is retried.  Returns the queue after the
push together with the filenames deleted along the way.  (With `cap = 0`
and an empty queue Go would block forever inside `DoRemove`; the claims
only concern `cap > 0`, where that branch is unreachable.) -/
def retryEnqueue (cap : Nat) (q : List String) (f : String) : List String × List String :=
  if q.length < cap then (q ++ [f], [])
  else
    match q with
    | [] => ([], [])
    | old :: rest =>
      let r := retryEnqueue cap rest f
      (r.1, old :: r.2)

/-- The construction-time directory trim in `NewWriterFromConfig`
(writer.go:130-139): the time-sorted historical files found in the log
directory are pushed one by one through the same retry loop, evicting and
deleting the oldest when the retention channel is full. -/
def initialTrim (cap : Nat) (files : List String) : List String × List String :=
  files.foldl (fun acc f =>
    let r := retryEnqueue cap acc.1 f
    (r.1, acc.2 ++ r.2)) ([], [])

/-- The retention step of the background task in `Writer.Reopen`
(writer.go:279-288): when `MaxRemain > 0`, push the new historical filename
through the retry loop; every evicted filename's file is deleted
(`os.Remove` failures are only logged and do not change the queue). -/
def retentionStep (w : WState) (file : String) : WState × List Ev :=
  if 0 < w.cf.maxRemain then
    let r := retryEnqueue w.cf.maxRemain.toNat w.rollingfilech file
    ({ w with rollingfilech := r.1 }, r.2.map fun old => Ev.removedFile old)
  else (w, [])

/-- Outcomes of the operating-system calls made by the background goroutine
spawned in `Writer.Reopen` (`none` = success). -/
structure BgOutcome where
  compressRenameRes : Option GoErr
  compressRes : Option GoErr
  deriving DecidableEq, Repr

/-- The goroutine body spawned at writer.go:265-289: optionally rename the
historical file to a `.tmp` name and gzip it (each failure is logged and
aborts the rest of the task), then run the retention step; the deferred
close of the previous handle runs last. -/
def reopenBg (bg : BgOutcome) (w : WState) (oldFd : Nat) (file : String) :
    WState × List Ev :=
  if w.cf.compress then
    match bg.compressRenameRes with
    | some _ => (w, [Ev.loggedErr "error in compress rename tempfile", Ev.closedOld oldFd])
    | none =>
      match bg.compressRes with
      | some _ =>
        (w, [Ev.renamed file (file ++ ".tmp"), Ev.loggedErr "error in compress log file",
             Ev.closedOld oldFd])
      | none =>
        let r := retentionStep w file
        (r.1, [Ev.renamed file (file ++ ".tmp"), Ev.compressedFile file] ++ r.2
              ++ [Ev.closedOld oldFd])
  else
    let r := retentionStep w file
    (r.1, r.2 ++ [Ev.closedOld oldFd])

/-- `Writer.Reopen` (writer.go:249-291): rename the active file to the
historical name, open a fresh file at the canonical path, atomically swap
the stored handle, and spawn the background task.  `renameRes` and
`openRes` are the outcomes of the two operating-system calls; the function
returns the rename/open error, or the post-swap state, together with the
event trace. -/
def Reopen (renameRes : Option GoErr) (openRes : Except GoErr Nat) (bg : BgOutcome)
    (w : WState) (file : String) : Except GoErr WState × List Ev :=
  match renameRes with
  | some e => (.error e, [])
  | none =>
    match openRes with
    | .error e => (.error e, [Ev.renamed w.absPath file])
    | .ok newFd =>
      let oldFd := w.fileId
      let w1 := { w with fileId := newFd }
      let r := reopenBg bg w1 oldFd file
      (.ok r.1, [Ev.renamed w.absPath file, Ev.opened w.absPath newFd] ++ r.2)

/-- The event recorded for `file.Write(b)` with outcome `fw`. -/
def writeEv (fd : Nat) (b : List Nat) (fw : Option GoErr) : Ev :=
  match fw with
  | none => Ev.fileWrite fd b
  | some _ => Ev.fileWriteFailed fd b

/-- The `(n, err)` pair returned by `file.Write(b)` with outcome `fw`; on
success Go reports the full length written. -/
def writeRes (b : List Nat) (fw : Option GoErr) : Nat × Option GoErr :=
  match fw with
  | none => (b.length, none)
  | some e => (0, some e)

/-- `Writer.Write` (writer.go:294-309): non-blocking poll of the fire
channel; a pending historical name triggers `Reopen` (whose error, if any,
is returned with count 0) before the caller's bytes are written to the
current handle. -/
def WriterWrite (renameRes : Option GoErr) (openRes : Except GoErr Nat) (bg : BgOutcome)
    (fw : Option GoErr) (w : WState) (b : List Nat) :
    (Nat × Option GoErr) × WState × List Ev :=
  match w.fire with
  | some filename =>
    let w0 := { w with fire := none }
    match Reopen renameRes openRes bg w0 filename with
    | (.error e, evs) => ((0, some e), w0, evs)
    | (.ok w1, evs) => (writeRes b fw, w1, evs ++ [writeEv w1.fileId b fw])
  | none => (writeRes b fw, w, [writeEv w.fileId b fw])

/-- `LockedWriter.Write` (writer.go:312-326): identical protocol under the
mutex; the `Lock`/`Unlock` pair serialises callers and is not observable in
the sequential embedding. -/
def LockedWriterWrite (renameRes : Option GoErr) (openRes : Except GoErr Nat)
    (bg : BgOutcome) (fw : Option GoErr) (w : WState) (b : List Nat) :
    (Nat × Option GoErr) × WState × List Ev :=
  match w.fire with
  | some filename =>
    let w0 := { w with fire := none }
    match Reopen renameRes openRes bg w0 filename with
    | (.error e, evs) => ((0, some e), w0, evs)
    | (.ok w1, evs) => (writeRes b fw, w1, evs ++ [writeEv w1.fileId b fw])
  | none => (writeRes b fw, w, [writeEv w.fileId b fw])

example :
    (WriterWrite none (.ok 5) ⟨none, none⟩ none
      { fileId := 1, absPath := "./log/log.log", fire := some "h", cf := {}, rollingfilech := [] }
      [7, 8]).1 = (2, none) := by decide

/-- State of the `BufferWriter` struct: the shared `Writer`, the current
accumulation buffer `buf`, and the single-flight flush flag `swaping`
(`int32` 0/1 modelled as `Bool`). -/
structure BufState where
  w : WState
  buf : List Nat
  swaping : Bool
  deriving DecidableEq, Repr

/-- The append-then-maybe-flush tail of `BufferWriter.Write`
(writer.go:368-382): append the caller's bytes to the shared buffer; when
the new length exceeds `BufferWriterThreshold` and the compare-and-swap on
`swaping` wins, swap in a fresh empty buffer and write the old one out —
the count and error of that `file.Write` are discarded — then reset the
flag.  The call always returns `(len b, nil)`. -/
def bufferAppendFlush (flushRes : Option GoErr) (st : BufState) (b : List Nat) :
    (Nat × Option GoErr) × BufState × List Ev :=
  let buf := st.buf ++ b
  if st.w.cf.bufferWriterThreshold < buf.length ∧ st.swaping = false then
    ((b.length, none), { st with buf := [], swaping := false },
     [Ev.bufAppend b, writeEv st.w.fileId buf flushRes])
  else
    ((b.length, none), { st with buf := buf }, [Ev.bufAppend b])

/-- `BufferWriter.Write` (writer.go:358-383): the same non-blocking poll of
the fire channel and `Reopen` on a pending name, then the
append-then-maybe-flush step. -/
def BufferWrite (renameRes : Option GoErr) (openRes : Except GoErr Nat) (bg : BgOutcome)
    (flushRes : Option GoErr) (st : BufState) (b : List Nat) :
    (Nat × Option GoErr) × BufState × List Ev :=
  match st.w.fire with
  | some filename =>
    let w0 := { st.w with fire := none }
    match Reopen renameRes openRes bg w0 filename with
    | (.error e, evs) => ((0, some e), { st with w := w0 }, evs)
    | (.ok w1, evs) =>
      let r := bufferAppendFlush flushRes { st with w := w1 } b
      (r.1, r.2.1, evs ++ r.2.2)
  | none => bufferAppendFlush flushRes st b

/-- The package-level `BufferSize` (capacity of a pooled async buffer). -/
def BufferSize : Nat := 0x100000

/-- The copy loop at writer.go:342-347: a payload is split into pooled
buffers of capacity `BufferSize`, preserving byte order. -/
def chunkBytes : List Nat → List (List Nat)
  | [] => []
  | x :: xs => (x :: xs).take BufferSize :: chunkBytes ((x :: xs).drop BufferSize)
termination_by b => b.length
decreasing_by
  simp only [List.length_drop, List.length_cons, BufferSize]
  omega

/-- State of the `AsynchronousWriter` struct: the shared `Writer`, the
closed flag, the buffered queue of pending payloads, the unbuffered
`errChan` — a consumer goroutine blocked sending an error on it is modelled
as an occupied single-slot relay `errSlot` — and the closed status of the
consumer-termination channel `ctx`. -/
structure AsyncState where
  w : WState
  closed : Bool
  queue : List (List Nat)
  errSlot : Option GoErr
  ctxClosed : Bool
  deriving DecidableEq, Repr

/-- `AsynchronousWriter.Write` (writer.go:329-355): when the closed flag is
clear, the `select` first delivers a relayed consumer error if one is
pending, else a pending fire message triggers `Reopen` followed by
enqueuing the payload split into pooled buffers, else the payload is copied
into one pooled buffer and enqueued.  When the closed flag is set the call
returns `(0, ErrClosed)` immediately.  (Go's `select` chooses randomly
among simultaneously ready cases; the embedding resolves it in the textual
order of the cases.  Sends on the capacity-`QueueSize` queue may block for
backpressure; blocking is not observable sequentially.) -/
def AsyncWrite (renameRes : Option GoErr) (openRes : Except GoErr Nat) (bg : BgOutcome)
    (st : AsyncState) (b : List Nat) :
    (Nat × Option GoErr) × AsyncState × List Ev :=
  if st.closed = false then
    match st.errSlot with
    | some e => ((0, some e), { st with errSlot := none }, [])
    | none =>
      match st.w.fire with
      | some filename =>
        let w0 := { st.w with fire := none }
        match Reopen renameRes openRes bg w0 filename with
        | (.error e, evs) => ((0, some e), { st with w := w0 }, evs)
        | (.ok w1, evs) =>
          let chunks := chunkBytes b
          ((b.length, none), { st with w := w1, queue := st.queue ++ chunks },
           evs ++ chunks.map fun c => Ev.enqueuedBuf c)
      | none =>
        ((b.length, none), { st with queue := st.queue ++ [b] }, [Ev.enqueuedBuf b])
  else ((0, some GoErr.errClosed), st, [])

/-- One iteration of the background consumer loop `AsynchronousWriter.writer`
(writer.go:430-444) taking a queued payload: write it to the active file;
on failure the consumer blocks sending the error on the unbuffered
`errChan`, modelled as parking the error in the single-slot relay. -/
def consumerStep (fw : Option GoErr) (st : AsyncState) : AsyncState × List Ev :=
  match st.queue with
  | [] => (st, [])
  | b :: rest =>
    match fw with
    | none => ({ st with queue := rest }, [Ev.fileWrite st.w.fileId b])
    | some e =>
      ({ st with queue := rest, errSlot := some e }, [Ev.fileWriteFailed st.w.fileId b])

/-- The drain loop of `AsynchronousWriter.onClose` (writer.go:409-427):
write out queued payloads until the queue is empty; on a write failure the
non-blocking `errChan` send finds no receiver, so the error is dropped and
draining stops.  `fw b` is the outcome of writing payload `b`. -/
def drainQueue (fw : List Nat → Option GoErr) (fd : Nat) :
    List (List Nat) → List (List Nat) × List Ev
  | [] => ([], [])
  | b :: rest =>
    match fw b with
    | none =>
      let r := drainQueue fw fd rest
      (r.1, Ev.fileWrite fd b :: r.2)
    | some _ => (rest, [Ev.fileWriteFailed fd b])

/-- `AsynchronousWriter.Close` (writer.go:398-406): when the
compare-and-swap on the closed flag wins, close the consumer-termination
channel, drain the queue, and close the file, returning the file-close
outcome; otherwise return `ErrClosed` without doing anything. -/
def AsyncClose (fw : List Nat → Option GoErr) (fileCloseRes : Option GoErr)
    (st : AsyncState) : Option GoErr × AsyncState × List Ev :=
  if st.closed = false then
    let st1 := { st with closed := true, ctxClosed := true }
    let r := drainQueue fw st1.w.fileId st1.queue
    (fileCloseRes, { st1 with queue := r.1 },
     Ev.ctxChanClosed :: r.2 ++ [Ev.fileClosed st.w.fileId])
  else (some GoErr.errClosed, st, [])

/-! Sample states used by the witness theorems. -/

/-- A sample configuration with bounded retention. -/
def sampleCfg : RConfig := { maxRemain := 2 }

/-- A sample writer state with a pending rotation-fire message. -/
def sampleW : WState :=
  { fileId := 1, absPath := "./log/log.log", fire := some "./log/log.log.202601010000",
    cf := sampleCfg, rollingfilech := ["./log/old1"] }

/-- The sample writer state with no pending fire message. -/
def sampleWIdle : WState := { sampleW with fire := none }

/-- A sample buffered-writer state below its flush threshold. -/
def sampleBuf : BufState := { w := sampleWIdle, buf := [1, 2], swaping := false }

/-- A sample asynchronous-writer state with one queued payload. -/
def sampleAsync : AsyncState :=
  { w := sampleWIdle, closed := false, queue := [[3, 4]], errSlot := none,
    ctxClosed := false }

/-! Helper lemmas. -/

lemma string_append_ne_empty_left (a b : String) (ha : a ≠ "") : a ++ b ≠ "" := by
  intro h
  apply ha
  have hd : a.data ++ b.data = [] := congrArg String.data h
  exact String.ext (List.append_eq_nil.mp hd).1

lemma string_append_ne_empty_right (a b : String) (hb : b ≠ "") : a ++ b ≠ "" := by
  intro h
  apply hb
  have hd : a.data ++ b.data = [] := congrArg String.data h
  exact String.ext (List.append_eq_nil.mp hd).2

lemma goAtoiRes_val_of_not_ok (s : String) (h : (goAtoiRes s).2 = false) :
    (goAtoiRes s).1 = 0 := by
  simp only [goAtoiRes] at h ⊢
  rw [h]
  simp

lemma bufferAppendFlush_fst (flushRes : Option GoErr) (st : BufState) (b : List Nat) :
    (bufferAppendFlush flushRes st b).1 = (b.length, none) := by
  simp only [bufferAppendFlush]
  split <;> rfl

lemma retryEnqueue_length_le (cap : Nat) (q : List String) (f : String)
    (hcap : 0 < cap) (hq : q.length ≤ cap) :
    (retryEnqueue cap q f).1.length ≤ cap := by
  by_cases hlt : q.length < cap
  · rw [retryEnqueue.eq_def, if_pos hlt]
    simp
    omega
  · have hq' : q.length = cap := le_antisymm hq (not_lt.mp hlt)
    cases q with
    | nil => simp at hq'; omega
    | cons old rest =>
      rw [retryEnqueue.eq_def, if_neg hlt]
      have hr : rest.length < cap := by simp at hq'; omega
      simp only
      rw [retryEnqueue.eq_def, if_pos hr]
      simp
      omega

lemma initialTrim_foldl_length_le (cap : Nat) (hcap : 0 < cap) (files : List String) :
    ∀ (q d : List String), q.length ≤ cap →
      ((files.foldl (fun acc f =>
          let r := retryEnqueue cap acc.1 f
          (r.1, acc.2 ++ r.2)) (q, d)).1.length ≤ cap) := by
  induction files with
  | nil => intro q d hq; simpa using hq
  | cons f fs ih =>
    intro q d hq
    simp only [List.foldl_cons]
    exact ih _ _ (retryEnqueue_length_le cap q f hcap hq)

lemma retentionStep_length_le (w : WState) (fname : String)
    (hq : w.rollingfilech.length ≤ w.cf.maxRemain.toNat) :
    (retentionStep w fname).1.rollingfilech.length ≤ w.cf.maxRemain.toNat := by
  unfold retentionStep
  by_cases h : 0 < w.cf.maxRemain
  · rw [if_pos h]
    exact retryEnqueue_length_le _ _ _ (by omega) hq
  · rw [if_neg h]
    exact hq

lemma retentionStep_cf (w : WState) (fname : String) :
    (retentionStep w fname).1.cf = w.cf := by
  unfold retentionStep
  split <;> rfl

lemma reopenBg_length_le (bg : BgOutcome) (w : WState) (oldFd : Nat) (file : String)
    (hq : w.rollingfilech.length ≤ w.cf.maxRemain.toNat) :
    (reopenBg bg w oldFd file).1.rollingfilech.length ≤ w.cf.maxRemain.toNat := by
  unfold reopenBg
  split
  · split
    · exact hq
    · split
      · exact hq
      · exact retentionStep_length_le w file hq
  · exact retentionStep_length_le w file hq

lemma reopenBg_cf (bg : BgOutcome) (w : WState) (oldFd : Nat) (file : String) :
    (reopenBg bg w oldFd file).1.cf = w.cf := by
  unfold reopenBg
  split
  · split
    · rfl
    · split
      · rfl
      · exact retentionStep_cf w file
  · exact retentionStep_cf w file




/-! Claim theorems. -/

/-- C3: `manager.Close` stops the cron schedule / size poller and closes the
termination channel, but it is not idempotent: on a manager whose
termination channel is still open the first `Close` succeeds (channel
closed, schedule stopped), and a second `Close` panics because it closes an
already-closed channel. -/
theorem c3_manager_close_not_idempotent (m : MgrState) (h : m.contextClosed = false) :
    ∃ m', managerClose m = .ok m' ∧ m'.contextClosed = true ∧ m'.cronRunning = false ∧
      managerClose m' = .error GoPanic.closeOfClosedChannel := by
  refine ⟨{ m with contextClosed := true, cronRunning := false }, ?_, rfl, rfl, ?_⟩
  · simp [managerClose, h]
  · simp [managerClose]

/-- Witness for C3 at a concrete manager state. -/
theorem c3_manager_close_witness :
    ∃ m', managerClose { startAt := 0, contextClosed := false, cronRunning := true } = .ok m' ∧
      m'.contextClosed = true ∧ m'.cronRunning = false ∧
      managerClose m' = .error GoPanic.closeOfClosedChannel :=
  c3_manager_close_not_idempotent
    { startAt := 0, contextClosed := false, cronRunning := true } rfl

/-- C4: `ParseVolume` is case-insensitive (it depends on its argument only
through the upper-cased bytes), recognizes an optional trailing "B" and the
unit letters K/M/G/T as binary (1024-based) multipliers, and maps a string
containing no recognized unit letter to the 1 GiB default; in particular
"1K" yields 1024, "2MB" yields 2097152, "3GB" yields 3221225472, and
"weird" yields 1073741824. -/
theorem c4_parse_volume_units :
    ParseVolume "1K" = 1024 ∧ ParseVolume "2MB" = 2097152 ∧
    ParseVolume "3GB" = 3221225472 ∧ ParseVolume "weird" = 1073741824 ∧
    ParseVolume "1k" = 1024 ∧ ParseVolume "2mb" = 2097152 ∧
    ParseVolume "3gB" = 3221225472 ∧ ParseVolume "6m" = 6291456 ∧
    ParseVolume "4g" = 4294967296 ∧ ParseVolume "5T" = 5497558138880 ∧
    ParseVolume "7kb" = 7168 ∧ ParseVolume "9tb" = 9895604649984 ∧
    (∀ s₁ s₂ : String, toUpperStr s₁ = toUpperStr s₂ → ParseVolume s₁ = ParseVolume s₂) ∧
    (∀ s : String,
      'K' ∉ (toUpperStr s).data → 'M' ∉ (toUpperStr s).data →
      'G' ∉ (toUpperStr s).data → 'T' ∉ (toUpperStr s).data →
      ParseVolume s = 1073741824) := by
  refine ⟨by decide, by decide, by decide, by decide, by decide, by decide, by decide,
    by decide, by decide, by decide, by decide, by decide, ?_, ?_⟩
  · intro s₁ s₂ h
    unfold ParseVolume
    rw [h]
  · intro s h1 h2 h3 h4
    unfold ParseVolume parseVolumeCore
    rw [if_pos (by simp [h1, h2, h3, h4])]
    norm_num

/-- Witness for C4's universally quantified parts at concrete inputs. -/
theorem c4_parse_volume_witness :
    ParseVolume "100mb" = ParseVolume "100Mb" ∧ ParseVolume "hello" = 1073741824 := by
  obtain ⟨-, -, -, -, -, -, -, -, -, -, -, -, hci, hdef⟩ := c4_parse_volume_units
  exact ⟨hci "100mb" "100Mb" (by decide), hdef "hello" (by decide) (by decide) (by decide) (by decide)⟩

/-- C10: for a size string containing one of the unit letters K/M/G/T (in
either case) whose leading characters do not parse as a decimal integer,
`ParseVolume` ignores the integer-parse error (Go's `strconv.Atoi` then
yields value 0 with a discarded error) and produces threshold 0 instead of
the 1 GiB default; in particular "MB" and "KIND" give 0, and with a zero
threshold the size poller's trigger condition holds for any non-empty
active file. -/
theorem c10_unparsed_number_zero_threshold :
    ParseVolume "MB" = 0 ∧ ParseVolume "KIND" = 0 ∧ ParseVolume "kind" = 0 ∧
    (∀ s : String,
      ('K' ∈ (toUpperStr s).data ∨ 'M' ∈ (toUpperStr s).data ∨
       'G' ∈ (toUpperStr s).data ∨ 'T' ∈ (toUpperStr s).data) →
      (goAtoiRes ⟨(toUpperStr s).data.take ((toUpperStr s).data.length - 1)⟩).2 = false →
      (goAtoiRes ⟨(toUpperStr s).data.take ((toUpperStr s).data.length - 2)⟩).2 = false →
      ParseVolume s = 0) ∧
    (∀ sz : Int, 1 ≤ sz → volumeTrigger sz (ParseVolume "MB") = true) := by
  refine ⟨by decide, by decide, by decide, ?_, ?_⟩
  · intro s hu h1 h2
    have hor : ((toUpperStr s).data.contains 'K' ∨ (toUpperStr s).data.contains 'M' ∨
        (toUpperStr s).data.contains 'G' ∨ (toUpperStr s).data.contains 'T' : Prop) := by
      simpa using hu
    unfold ParseVolume parseVolumeCore
    rw [if_neg (not_not_intro hor)]
    by_cases hB : (toUpperStr s).data.getLast? = some 'B'
    · rw [if_pos hB]
      simp only [goAtoiVal]
      rw [goAtoiRes_val_of_not_ok _ h2]
      exact zero_mul _
    · rw [if_neg hB]
      simp only [goAtoiVal]
      rw [goAtoiRes_val_of_not_ok _ h1]
      exact zero_mul _
  · intro sz hsz
    have : ParseVolume "MB" = 0 := by decide
    rw [this]
    simp [volumeTrigger]
    omega

/-- Witness for C10's universally quantified parts at concrete inputs. -/
theorem c10_unparsed_number_witness :
    ParseVolume "Mb" = 0 ∧ volumeTrigger 1 (ParseVolume "MB") = true := by
  obtain ⟨-, -, -, hgen, htrig⟩ := c10_unparsed_number_zero_threshold
  exact ⟨hgen "Mb" (by decide) (by decide) (by decide), htrig 1 (by decide)⟩

/-- C5 counterexample: at the package-default log directory "./log"
(`NewDefaultConfig`), the `path.Clean` inside Go's `path.Join` strips the
leading "./", so the generated name is "log/log.log.gz.5" while the
claim's literal `<LogPath>/<FileName>.log.gz.<tag>` template reads
"./log/log.log.gz.5" — the two differ. -/
theorem c5_gen_log_file_name_counterexample :
    (GenLogFileName (fun t _ => toString t) 9 { sampleCfg with compress := true }
        { startAt := 5, contextClosed := false, cronRunning := true }).1
      = "log/log.log.gz.5" ∧
    specHistoricalName { sampleCfg with compress := true } "5" = "./log/log.log.gz.5" ∧
    (GenLogFileName (fun t _ => toString t) 9 { sampleCfg with compress := true }
        { startAt := 5, contextClosed := false, cronRunning := true }).1
      ≠ specHistoricalName { sampleCfg with compress := true } "5" :=
  ⟨by decide, by decide, by decide⟩

/-- C5 (amended): for every config with a non-empty log directory,
`GenLogFileName` returns the `path.Clean` of
`<LogPath>/<FileName>.log.gz.<tag>` when compression is enabled and of
`<LogPath>/<FileName>.log.<tag>` otherwise — equal to the literal template
exactly when that template is already a clean path — where `<tag>` is the
stored segment-start timestamp formatted with `TimeTagFormat`; and the call
mutates the manager by resetting the segment-start timestamp to the
current time after reading it. -/
theorem c5_gen_log_file_name_cleaned (format : Nat → String → String) (now : Nat)
    (c : RConfig) (m : MgrState) (hlp : c.logPath ≠ "") :
    (GenLogFileName format now c m).1
      = pathClean (specHistoricalName c (format m.startAt c.timeTagFormat)) ∧
    (GenLogFileName format now c m).2.startAt = now ∧
    (pathClean (specHistoricalName c (format m.startAt c.timeTagFormat))
        = specHistoricalName c (format m.startAt c.timeTagFormat) →
      (GenLogFileName format now c m).1
        = specHistoricalName c (format m.startAt c.timeTagFormat)) := by
  have hmain : (GenLogFileName format now c m).1
      = pathClean (specHistoricalName c (format m.startAt c.timeTagFormat)) := by
    unfold GenLogFileName specHistoricalName pathJoin
    by_cases hc : c.compress = true
    · rw [if_pos hc, if_pos hc, if_neg (fun h => hlp h.1), if_neg hlp,
        if_neg (string_append_ne_empty_left _ _
          (string_append_ne_empty_right _ _ (by decide)))]
      apply congrArg pathClean
      apply String.ext
      simp [String.data_append]
    · rw [if_neg hc, if_neg hc, if_neg (fun h => hlp h.1), if_neg hlp,
        if_neg (string_append_ne_empty_left _ _
          (string_append_ne_empty_right _ _ (by decide)))]
      apply congrArg pathClean
      apply String.ext
      simp [String.data_append]
  exact ⟨hmain, rfl, fun h => by rw [hmain, h]⟩

/-- A configuration whose log directory is already a clean path. -/
def cleanCfg : RConfig := { sampleCfg with logPath := "log", compress := true }

/-- Witness for C5 (amended) at a concrete config, manager state, and
format function; the template is clean here, so the literal form also
holds. -/
theorem c5_gen_log_file_name_cleaned_witness :
    (GenLogFileName (fun t _ => toString t) 9 cleanCfg
        { startAt := 5, contextClosed := false, cronRunning := true }).1
      = pathClean (specHistoricalName cleanCfg "5") ∧
    (GenLogFileName (fun t _ => toString t) 9 cleanCfg
        { startAt := 5, contextClosed := false, cronRunning := true }).2.startAt = 9 ∧
    (GenLogFileName (fun t _ => toString t) 9 cleanCfg
        { startAt := 5, contextClosed := false, cronRunning := true }).1
      = specHistoricalName cleanCfg "5" := by
  have h := c5_gen_log_file_name_cleaned (fun t _ => toString t) 9 cleanCfg
    { startAt := 5, contextClosed := false, cronRunning := true } (by decide)
  exact ⟨h.1, h.2.1, h.2.2 (by decide)⟩

/-- A writer state reached after a successful rotation of `sampleW`:
handle 5 is active and the historical name has been enqueued. -/
def reopenedW : WState :=
  { fileId := 5, absPath := "./log/log.log", fire := none, cf := sampleCfg,
    rollingfilech := ["./log/old1", "./log/log.log.202601010000"] }

/-- C1: every `Write` of the Writer, LockedWriter and BufferWriter variants
first performs a non-blocking poll of the rotation fire channel: with a
pending historical filename it invokes `Reopen` on it — all rotation events
precede the write of the caller's bytes in the trace — and with no pending
filename it proceeds directly to the write step. -/
theorem c1_write_polls_fire_before_writing
    (rn : Option GoErr) (op : Except GoErr Nat) (bg : BgOutcome)
    (fw flushRes : Option GoErr) (w : WState) (st : BufState) (b : List Nat)
    (f : String) (w1 wb : WState) :
    ((w.fire = none →
        WriterWrite rn op bg fw w b = (writeRes b fw, w, [writeEv w.fileId b fw])) ∧
     (w.fire = some f → (Reopen rn op bg { w with fire := none } f).1 = .ok w1 →
        WriterWrite rn op bg fw w b
          = (writeRes b fw, w1,
             (Reopen rn op bg { w with fire := none } f).2 ++ [writeEv w1.fileId b fw]))) ∧
    ((w.fire = none →
        LockedWriterWrite rn op bg fw w b = (writeRes b fw, w, [writeEv w.fileId b fw])) ∧
     (w.fire = some f → (Reopen rn op bg { w with fire := none } f).1 = .ok w1 →
        LockedWriterWrite rn op bg fw w b
          = (writeRes b fw, w1,
             (Reopen rn op bg { w with fire := none } f).2 ++ [writeEv w1.fileId b fw]))) ∧
    ((st.w.fire = none →
        BufferWrite rn op bg flushRes st b = bufferAppendFlush flushRes st b) ∧
     (st.w.fire = some f → (Reopen rn op bg { st.w with fire := none } f).1 = .ok wb →
        BufferWrite rn op bg flushRes st b
          = ((bufferAppendFlush flushRes { st with w := wb } b).1,
             (bufferAppendFlush flushRes { st with w := wb } b).2.1,
             (Reopen rn op bg { st.w with fire := none } f).2
               ++ (bufferAppendFlush flushRes { st with w := wb } b).2.2))) := by
  refine ⟨⟨?_, ?_⟩, ⟨?_, ?_⟩, ⟨?_, ?_⟩⟩
  · intro hf
    simp only [WriterWrite, hf]
  · intro hf hok
    rcases hR : Reopen rn op bg { w with fire := none } f with ⟨re, evs⟩
    rw [hR] at hok
    simp only at hok
    subst hok
    simp only [WriterWrite, hf, hR]
  · intro hf
    simp only [LockedWriterWrite, hf]
  · intro hf hok
    rcases hR : Reopen rn op bg { w with fire := none } f with ⟨re, evs⟩
    rw [hR] at hok
    simp only at hok
    subst hok
    simp only [LockedWriterWrite, hf, hR]
  · intro hf
    simp only [BufferWrite, hf]
  · intro hf hok
    rcases hR : Reopen rn op bg { st.w with fire := none } f with ⟨re, evs⟩
    rw [hR] at hok
    simp only at hok
    subst hok
    simp only [BufferWrite, hf, hR]

/-- Witness for C1: a concrete rotation-then-write run of `Writer.Write`. -/
theorem c1_write_polls_witness :
    WriterWrite none (.ok 5) ⟨none, none⟩ none sampleW [7]
      = (writeRes [7] none, reopenedW,
         (Reopen none (.ok 5) ⟨none, none⟩ { sampleW with fire := none }
            "./log/log.log.202601010000").2 ++ [writeEv reopenedW.fileId [7] none]) :=
  (c1_write_polls_fire_before_writing none (.ok 5) ⟨none, none⟩ none none sampleW
    sampleBuf [7] "./log/log.log.202601010000" reopenedW reopenedW).1.2
    (by decide) (by rfl)

/-- C2: `Reopen` returns an error exactly when the rename of the active
file or the open of the fresh file fails — the outcomes of the background
step (closing the previous handle, compression, retention) never influence
the returned value — and when a `Write` call's `Reopen` fails, that same
`Write` returns the error with count 0 and the caller's own bytes are not
written (no file-write event for them appears in the trace). -/
theorem c2_reopen_error_scope
    (rn : Option GoErr) (op : Except GoErr Nat) (bg bg' : BgOutcome) (w : WState)
    (f : String) (fw : Option GoErr) (b : List Nat) (e : GoErr) :
    ((Reopen rn op bg w f).1 = .error e ↔ rn = some e ∨ (rn = none ∧ op = .error e)) ∧
    ((Reopen rn op bg w f).1 = .error e ↔ (Reopen rn op bg' w f).1 = .error e) ∧
    (w.fire = some f → (Reopen rn op bg { w with fire := none } f).1 = .error e →
      WriterWrite rn op bg fw w b
        = ((0, some e), { w with fire := none },
           (Reopen rn op bg { w with fire := none } f).2) ∧
      ∀ fd, Ev.fileWrite fd b ∉ (WriterWrite rn op bg fw w b).2.2 ∧
        Ev.fileWriteFailed fd b ∉ (WriterWrite rn op bg fw w b).2.2) := by
  refine ⟨?_, ?_, ?_⟩
  · cases rn with
    | some a => simp [Reopen]
    | none => cases op <;> simp [Reopen]
  · cases rn with
    | some a => simp [Reopen]
    | none => cases op <;> simp [Reopen]
  · intro hf herr
    cases rn with
    | some a =>
      simp only [Reopen] at herr
      have ha : a = e := by simpa using herr
      subst ha
      constructor
      · simp only [WriterWrite, hf, Reopen]
      · intro fd
        simp [WriterWrite, hf, Reopen]
    | none =>
      cases op with
      | error a =>
        simp only [Reopen] at herr
        have ha : a = e := by simpa using herr
        subst ha
        constructor
        · simp only [WriterWrite, hf, Reopen]
        · intro fd
          simp [WriterWrite, hf, Reopen]
      | ok nf =>
        exfalso
        simp [Reopen] at herr

/-- Witness for C2: a failed rename surfaces from the same `Write` call
with count 0 and no caller-byte write event. -/
theorem c2_reopen_error_witness :
    WriterWrite (some (GoErr.ioError "rename failed")) (.ok 5) ⟨none, none⟩ none sampleW [7]
      = ((0, some (GoErr.ioError "rename failed")), { sampleW with fire := none },
         (Reopen (some (GoErr.ioError "rename failed")) (.ok 5) ⟨none, none⟩
            { sampleW with fire := none } "./log/log.log.202601010000").2) ∧
    Ev.fileWrite 5 [7] ∉
      (WriterWrite (some (GoErr.ioError "rename failed")) (.ok 5) ⟨none, none⟩ none
        sampleW [7]).2.2 := by
  have h := (c2_reopen_error_scope (some (GoErr.ioError "rename failed")) (.ok 5)
    ⟨none, none⟩ ⟨none, none⟩ sampleW "./log/log.log.202601010000" none [7]
    (GoErr.ioError "rename failed")).2.2 (by decide) (by rfl)
  exact ⟨h.1, (h.2 5).1⟩

/-- C6: with a positive retention count the retention queue has capacity
`MaxRemain` and its length never exceeds that capacity: an enqueue that
finds the queue full first pops and deletes the oldest entry and then
retries the push until it succeeds — both during the construction-time
directory trim and during the background step of `Reopen`. -/
theorem c6_retention_queue_bounded
    (cap : Nat) (q rest files : List String) (f old fname : String)
    (rn : Option GoErr) (op : Except GoErr Nat) (bg : BgOutcome) (w w1 : WState) :
    (0 < cap → q.length ≤ cap → (retryEnqueue cap q f).1.length ≤ cap) ∧
    (0 < cap → q = old :: rest → q.length = cap →
      retryEnqueue cap q f = (rest ++ [f], [old])) ∧
    (0 < cap → (initialTrim cap files).1.length ≤ cap) ∧
    (0 < w.cf.maxRemain → w.rollingfilech.length ≤ w.cf.maxRemain.toNat →
      (Reopen rn op bg w fname).1 = .ok w1 →
      w1.rollingfilech.length ≤ w.cf.maxRemain.toNat) := by
  refine ⟨fun hcap hq => retryEnqueue_length_le cap q f hcap hq, ?_, ?_, ?_⟩
  · intro hcap hq hlen
    subst hq
    have hlt : ¬((old :: rest).length < cap) := by omega
    have hr : rest.length < cap := by simp at hlen; omega
    rw [retryEnqueue.eq_def, if_neg hlt]
    simp only
    rw [retryEnqueue.eq_def, if_pos hr]
  · intro hcap
    exact initialTrim_foldl_length_le cap hcap files [] [] (by simp)
  · intro hmr hq hok
    cases rn with
    | some a => simp [Reopen] at hok
    | none =>
      cases op with
      | error a => simp [Reopen] at hok
      | ok nf =>
        simp only [Reopen] at hok
        have hw1 : (reopenBg bg { w with fileId := nf } w.fileId fname).1 = w1 := by
          simpa using hok
        rw [← hw1]
        exact reopenBg_length_le bg { w with fileId := nf } w.fileId fname hq

/-- Witness for C6 at concrete queues, files, and a concrete rotation. -/
theorem c6_retention_queue_witness :
    (retryEnqueue 2 ["a", "b"] "c").1.length ≤ 2 ∧
    retryEnqueue 2 ["a", "b"] "c" = (["b", "c"], ["a"]) ∧
    (initialTrim 2 ["a", "b", "c"]).1.length ≤ 2 ∧
    reopenedW.rollingfilech.length ≤ sampleWIdle.cf.maxRemain.toNat := by
  obtain ⟨h1, h2, h3, h4⟩ := c6_retention_queue_bounded 2 ["a", "b"] ["b"]
    ["a", "b", "c"] "c" "a" "./log/log.log.202601010000" none (.ok 5) ⟨none, none⟩
    sampleWIdle reopenedW
  exact ⟨h1 (by decide) (by decide), h2 (by decide) rfl (by decide),
    h3 (by decide), h4 (by decide) (by decide) (by rfl)⟩

/-- C7: for the AsynchronousWriter, `Close` performs its shutdown sequence
(stop consumer, drain queue, close file) exactly once, guarded by a
compare-and-swap on the closed flag — a second `Close` returns `ErrClosed`
and changes nothing — and every `Write` made after the closed flag is set
returns immediately with count 0 and the `ErrClosed` error. -/
theorem c7_async_close_once
    (fw fw' : List Nat → Option GoErr) (fcr fcr' : Option GoErr) (st : AsyncState)
    (rn : Option GoErr) (op : Except GoErr Nat) (bg : BgOutcome) (b : List Nat) :
    (st.closed = false →
      (AsyncClose fw fcr st).1 = fcr ∧
      (AsyncClose fw fcr st).2.1.closed = true ∧
      (AsyncClose fw fcr st).2.1.ctxClosed = true ∧
      (AsyncClose fw fcr st).2.2
        = Ev.ctxChanClosed :: (drainQueue fw st.w.fileId st.queue).2
            ++ [Ev.fileClosed st.w.fileId] ∧
      AsyncClose fw' fcr' (AsyncClose fw fcr st).2.1
        = (some GoErr.errClosed, (AsyncClose fw fcr st).2.1, [])) ∧
    (st.closed = true → AsyncClose fw fcr st = (some GoErr.errClosed, st, [])) ∧
    (st.closed = true → AsyncWrite rn op bg st b = ((0, some GoErr.errClosed), st, [])) := by
  refine ⟨?_, ?_, ?_⟩
  · intro h
    refine ⟨?_, ?_, ?_, ?_, ?_⟩ <;> simp [AsyncClose, h]
  · intro h
    simp [AsyncClose, h]
  · intro h
    simp [AsyncWrite, h]

/-- Witness for C7: first close of a concrete open writer, second close,
and a write after close. -/
theorem c7_async_close_once_witness :
    (AsyncClose (fun _ => none) none sampleAsync).1 = none ∧
    (AsyncClose (fun _ => none) none sampleAsync).2.1.closed = true ∧
    AsyncClose (fun _ => none) none (AsyncClose (fun _ => none) none sampleAsync).2.1
      = (some GoErr.errClosed, (AsyncClose (fun _ => none) none sampleAsync).2.1, []) ∧
    AsyncWrite none (.ok 5) ⟨none, none⟩ { sampleAsync with closed := true } [7]
      = ((0, some GoErr.errClosed), { sampleAsync with closed := true }, []) := by
  obtain ⟨hopen, -, hwrite⟩ := c7_async_close_once (fun _ => none) (fun _ => none)
    none none sampleAsync none (.ok 5) ⟨none, none⟩ [7]
  obtain ⟨h1, h2, -, -, h5⟩ := hopen rfl
  obtain ⟨-, -, hwrite'⟩ := c7_async_close_once (fun _ => none) (fun _ => none)
    none none { sampleAsync with closed := true } none (.ok 5) ⟨none, none⟩ [7]
  exact ⟨h1, h2, h5, hwrite' rfl⟩

/-- C8: in the AsynchronousWriter, a write failure in the background
consumer is parked in the single-slot error relay and delivered to exactly
the next `Write` call, which returns count 0 and the consumer's error
without enqueuing its own bytes; if no further `Write` occurs, `Close`
ignores the parked error (it returns the file-close outcome and leaves the
slot untouched), so the error is silently dropped. -/
theorem c8_async_error_relay
    (st : AsyncState) (rn : Option GoErr) (op : Except GoErr Nat) (bg : BgOutcome)
    (b bq : List Nat) (rest : List (List Nat)) (e : GoErr)
    (fw : List Nat → Option GoErr) (fcr : Option GoErr) :
    (st.queue = bq :: rest →
      consumerStep (some e) st
        = ({ st with queue := rest, errSlot := some e },
           [Ev.fileWriteFailed st.w.fileId bq])) ∧
    (st.closed = false → st.errSlot = some e →
      AsyncWrite rn op bg st b = ((0, some e), { st with errSlot := none }, [])) ∧
    (st.closed = false → st.errSlot = some e →
      (AsyncClose fw fcr st).1 = fcr ∧ (AsyncClose fw fcr st).2.1.errSlot = some e) := by
  refine ⟨?_, ?_, ?_⟩
  · intro hq
    simp [consumerStep, hq]
  · intro hc he
    simp [AsyncWrite, hc, he]
  · intro hc he
    constructor <;> simp [AsyncClose, hc, he]

/-- Witness for C8: a concrete consumer failure, its delivery to the next
write, and its silent drop at close. -/
theorem c8_async_error_relay_witness :
    consumerStep (some (GoErr.ioError "disk full")) sampleAsync
      = ({ sampleAsync with queue := [], errSlot := some (GoErr.ioError "disk full") },
         [Ev.fileWriteFailed sampleAsync.w.fileId [3, 4]]) ∧
    AsyncWrite none (.ok 5) ⟨none, none⟩
        { sampleAsync with errSlot := some (GoErr.ioError "disk full") } [7]
      = ((0, some (GoErr.ioError "disk full")),
         { { sampleAsync with errSlot := some (GoErr.ioError "disk full") }
             with errSlot := none }, []) ∧
    (AsyncClose (fun _ => none) none
        { sampleAsync with errSlot := some (GoErr.ioError "disk full") }).1 = none := by
  obtain ⟨h1, -, -⟩ := c8_async_error_relay sampleAsync none (.ok 5) ⟨none, none⟩
    [7] [3, 4] [] (GoErr.ioError "disk full") (fun _ => none) none
  obtain ⟨-, h2, h3⟩ := c8_async_error_relay
    { sampleAsync with errSlot := some (GoErr.ioError "disk full") } none (.ok 5)
    ⟨none, none⟩ [7] [3, 4] [] (GoErr.ioError "disk full") (fun _ => none) none
  exact ⟨h1 rfl, h2 rfl rfl, (h3 rfl rfl).1⟩

/-- C9: in the BufferWriter, the error and byte count of the file write
performed during a flush are discarded: whenever no pending rotation fails,
`Write` returns `(len b, nil)` even if writing the swapped-out buffer to
the active file fails, and the failed flush leaves no error or log event —
flush I/O errors are silently lost. -/
theorem c9_buffer_flush_error_discarded
    (rn : Option GoErr) (op : Except GoErr Nat) (bg : BgOutcome)
    (flushRes : Option GoErr) (st : BufState) (b : List Nat) (f : String)
    (w1 : WState) (e : GoErr) :
    (st.w.fire = none → (BufferWrite rn op bg flushRes st b).1 = (b.length, none)) ∧
    (st.w.fire = some f → (Reopen rn op bg { st.w with fire := none } f).1 = .ok w1 →
      (BufferWrite rn op bg flushRes st b).1 = (b.length, none)) ∧
    (st.w.fire = none → st.w.cf.bufferWriterThreshold < (st.buf ++ b).length →
      st.swaping = false →
      (BufferWrite rn op bg (some e) st b).1 = (b.length, none) ∧
      (BufferWrite rn op bg (some e) st b).2.2
        = [Ev.bufAppend b, Ev.fileWriteFailed st.w.fileId (st.buf ++ b)]) := by
  refine ⟨?_, ?_, ?_⟩
  · intro hf
    simp only [BufferWrite, hf]
    exact bufferAppendFlush_fst flushRes st b
  · intro hf hok
    rcases hR : Reopen rn op bg { st.w with fire := none } f with ⟨re, evs⟩
    rw [hR] at hok
    simp only at hok
    subst hok
    simp only [BufferWrite, hf, hR]
    exact bufferAppendFlush_fst flushRes { st with w := w1 } b
  · intro hf hth hsw
    simp only [BufferWrite, hf, bufferAppendFlush]
    rw [if_pos ⟨hth, hsw⟩]
    exact ⟨rfl, rfl⟩

/-- Witness for C9: a concrete threshold-crossing write whose flush fails
on disk yet still reports full success to the caller. -/
theorem c9_buffer_flush_error_witness :
    (BufferWrite none (.ok 5) ⟨none, none⟩ (some (GoErr.ioError "disk full"))
        { w := { sampleWIdle with cf := { sampleCfg with bufferWriterThreshold := 2 } },
          buf := [1, 2], swaping := false } [3]).1 = (1, none) ∧
    (BufferWrite none (.ok 5) ⟨none, none⟩ (some (GoErr.ioError "disk full"))
        { w := { sampleWIdle with cf := { sampleCfg with bufferWriterThreshold := 2 } },
          buf := [1, 2], swaping := false } [3]).2.2
      = [Ev.bufAppend [3], Ev.fileWriteFailed 1 [1, 2, 3]] := by
  have h := (c9_buffer_flush_error_discarded none (.ok 5) ⟨none, none⟩
    (some (GoErr.ioError "disk full"))
    { w := { sampleWIdle with cf := { sampleCfg with bufferWriterThreshold := 2 } },
      buf := [1, 2], swaping := false } [3] "x" sampleWIdle
    (GoErr.ioError "disk full")).2.2 rfl (by decide) rfl
  exact ⟨h.1, h.2⟩
